import Mathlib

/-!
Verification of LazyCopy (src/app.py).

Shallow embedding of the copy worker: `is_binary`, `Worker.close_bar`,
`Worker.link_file` and `Worker.copy_file`. File contents are modelled as
lists of byte values (naturals below 256); text-mode access follows
CPython's strict utf-8 codec together with universal-newline translation
on a platform whose line separator is LF (`os.linesep = "\n"`).
Filesystem and I/O failures are injected through an explicit fault
parameter naming the operation that raises.
-/

namespace LazyCopy

/-- Decodes one UTF-8 code point from the front of a byte list, following
CPython's strict utf-8 codec (continuation bytes in `0x80..0xBF`, no
overlong forms, no surrogates, nothing above `0x10FFFF`). `none` models a
raised `UnicodeDecodeError` (also for a sequence truncated by end of
stream), `some none` is end of stream, and `some (some (c, rest))` yields
the code point and the remaining bytes. -/
def utf8DecodeOne : List Nat → Option (Option (Nat × List Nat))
  | [] => some none
  | b :: bs =>
    if b < 0x80 then some (some (b, bs))
    else if b < 0xC2 then none
    else if b < 0xE0 then
      match bs with
      | c1 :: r =>
        if 0x80 ≤ c1 ∧ c1 < 0xC0 then
          some (some ((b - 0xC0) * 64 + (c1 - 0x80), r))
        else none
      | [] => none
    else if b < 0xF0 then
      match bs with
      | c1 :: c2 :: r =>
        if (0x80 ≤ c1 ∧ c1 < 0xC0) ∧ (0x80 ≤ c2 ∧ c2 < 0xC0) ∧
            (b ≠ 0xE0 ∨ 0xA0 ≤ c1) ∧ (b ≠ 0xED ∨ c1 < 0xA0) then
          some (some ((b - 0xE0) * 4096 + (c1 - 0x80) * 64 + (c2 - 0x80), r))
        else none
      | _ => none
    else if b < 0xF5 then
      match bs with
      | c1 :: c2 :: c3 :: r =>
        if (0x80 ≤ c1 ∧ c1 < 0xC0) ∧ (0x80 ≤ c2 ∧ c2 < 0xC0) ∧
            (0x80 ≤ c3 ∧ c3 < 0xC0) ∧
            (b ≠ 0xF0 ∨ 0x90 ≤ c1) ∧ (b ≠ 0xF4 ∨ c1 < 0x90) then
          some (some ((b - 0xF0) * 262144 + (c1 - 0x80) * 4096 +
            (c2 - 0x80) * 64 + (c3 - 0x80), r))
        else none
      | _ => none
    else none

/-- Decodes greedily up to `n` code points, keeping the prefix decoded so
far: returns the decoded code points, the unconsumed bytes, and a flag
that is `true` exactly when decoding stopped on an invalid or truncated
sequence rather than on end of stream or exhausted fuel. -/
def utf8DecodePrefixAux : Nat → List Nat → List Nat × List Nat × Bool
  | 0, bytes => ([], bytes, false)
  | n + 1, bytes =>
    match utf8DecodeOne bytes with
    | none => ([], bytes, true)
    | some none => ([], bytes, false)
    | some (some (c, rest)) =>
      let p := utf8DecodePrefixAux n rest
      (c :: p.1, p.2.1, p.2.2)

/-- Encodes one code point to UTF-8 bytes. -/
def utf8EncodeChar (c : Nat) : List Nat :=
  if c < 0x80 then [c]
  else if c < 0x800 then [0xC0 + c / 64, 0x80 + c % 64]
  else if c < 0x10000 then [0xE0 + c / 4096, 0x80 + c / 64 % 64, 0x80 + c % 64]
  else [0xF0 + c / 262144, 0x80 + c / 4096 % 64, 0x80 + c / 64 % 64, 0x80 + c % 64]

/-- Encodes a list of code points to UTF-8 bytes. -/
def utf8Encode (cs : List Nat) : List Nat := (cs.map utf8EncodeChar).flatten

/-- Universal-newline translation performed by text-mode reading
(`newline=None`): `CR LF` and a lone `CR` both become `LF`. -/
def translateNewlines : List Nat → List Nat
  | [] => []
  | 13 :: 10 :: rest => 10 :: translateNewlines rest
  | 13 :: rest => 10 :: translateNewlines rest
  | c :: rest => c :: translateNewlines rest

/-- Outcome of eagerly decoding one buffered chunk of text, counting the
complete code points produced: `clean` consumed every byte as complete
characters; `held` ended in a nonempty incomplete-but-valid sequence that
the incremental decoder holds back awaiting more input; `invalid` hit a
hard `UnicodeDecodeError` inside the chunk. -/
inductive ScanResult
  | clean (chars : Nat)
  | held (chars : Nat)
  | invalid (chars : Nat)
deriving DecidableEq

/-- Whether `bytes` is a nonempty strict prefix of a single valid UTF-8
sequence: CPython's incremental utf-8 decoder (`final=False`) holds such
a tail back instead of raising. Anything that can never extend to a
valid sequence (stray continuation byte, `0xC0`/`0xC1`, a lead above
`0xF4`, a continuation byte outside the lead's allowed range) raises at
once and is not a pending tail. -/
def utf8PendingTail (bytes : List Nat) : Bool :=
  match bytes with
  | [b] => decide (0xC2 ≤ b ∧ b < 0xF5)
  | [b, c1] =>
    decide ((0xE0 ≤ b ∧ b < 0xF5) ∧ 0x80 ≤ c1 ∧ c1 < 0xC0 ∧
      (b ≠ 0xE0 ∨ 0xA0 ≤ c1) ∧ (b ≠ 0xED ∨ c1 < 0xA0) ∧
      (b ≠ 0xF0 ∨ 0x90 ≤ c1) ∧ (b ≠ 0xF4 ∨ c1 < 0x90))
  | [b, c1, c2] =>
    decide ((0xF0 ≤ b ∧ b < 0xF5) ∧ 0x80 ≤ c1 ∧ c1 < 0xC0 ∧
      (b ≠ 0xF0 ∨ 0x90 ≤ c1) ∧ (b ≠ 0xF4 ∨ c1 < 0x90) ∧
      0x80 ≤ c2 ∧ c2 < 0xC0)
  | _ => false

/-- Eagerly decodes one whole buffered chunk with the incremental utf-8
decoder under `final=False`, the way `TextIOWrapper._read_chunk` does:
complete characters are counted, a trailing incomplete-but-valid
sequence is held back (`held`), and any other failure raises inside the
chunk (`invalid`). A fuel of `bytes.length` suffices, since every
decoded character consumes at least one byte. -/
def utf8ScanChunk : Nat → List Nat → ScanResult
  | 0, _ => .clean 0
  | fuel + 1, bytes =>
    if bytes = [] then .clean 0
    else if utf8PendingTail bytes then .held 0
    else
      match utf8DecodeOne bytes with
      | some (some (_, rest)) =>
        match utf8ScanChunk fuel rest with
        | .clean k => .clean (k + 1)
        | .held k => .held (k + 1)
        | .invalid k => .invalid (k + 1)
      | _ => .invalid 0

/-- Embeds `is_binary` (src/app.py lines 22-40) with CPython's buffered
text-I/O semantics. `fp.read(16)` first calls `_read_chunk`, which does
one `read1` of `_CHUNK_SIZE = 8192` bytes (one raw read, so the whole
first 8192 bytes of a regular file, or the whole file when shorter) and
decodes that chunk EAGERLY: an invalid sequence anywhere in the chunk
raises `UnicodeDecodeError`, which the except-clause catches and turns
into the binary classification. If the chunk decodes, `read(16)` returns
once at least 16 characters are available; a full 8192-byte chunk always
yields at least 16 (see `utf8ScanChunk_held_length`), so bytes beyond
the first 8192 are never decoded. Only when the file itself produced
fewer than 16 characters does a second `_read_chunk` hit end of file and
re-run the decoder with `final=True`, where a held-back incomplete tail
then raises — hence the `held` case below is binary exactly when the
file fits in one chunk and gave fewer than 16 characters. The caught
exception never escapes: the function is total. -/
def is_binary (content : List Nat) : Bool :=
  match utf8ScanChunk (content.take 8192).length (content.take 8192) with
  | .invalid _ => true
  | .clean _ => false
  | .held k => if content.length ≤ 8192 then decide (k < 16) else false

/-- Fuel-driven worker behind `chunksOf`: take a chunk of at most `cs`
elements and recurse on the rest while the list is nonempty. Any fuel of
at least `l.length` is enough, since each step with `cs ≠ 0` drops at
least one element. -/
def chunksOfAux : Nat → Nat → List Nat → List (List Nat)
  | 0, _, _ => []
  | fuel + 1, cs, l =>
    if cs = 0 ∨ l = [] then []
    else l.take cs :: chunksOfAux fuel cs (l.drop cs)

/-- Splits a list into consecutive chunks produced by repeated `read(cs)`
calls: each chunk has at most `cs` elements and only the last may be
shorter. With `cs = 0` every read returns the empty chunk, so the
while-loop of `copy_file` exits at once and no chunk is produced. -/
def chunksOf (cs : Nat) (l : List Nat) : List (List Nat) :=
  chunksOfAux l.length cs l

/-- Progress-bar state (`tqdm`): the total from `os.path.getsize` and the
bytes-or-characters advanced so far via `update`. -/
structure Bar where
  total : Nat
  transferred : Nat
deriving DecidableEq

/-- Worker state (src/app.py lines 48-51): the optional live progress bar
`_bar` and the configured chunk size. -/
structure Worker where
  bar : Option Bar
  chunk_size : Nat
deriving DecidableEq

/-- Embeds `Worker.__init__`: no live bar, given chunk size. -/
def Worker.init (chunk_size : Nat) : Worker :=
  { bar := none, chunk_size := chunk_size }

/-- Embeds `Worker.close_bar` (lines 63-69): close and clear the bar when
one is live, otherwise do nothing. -/
def Worker.close_bar (w : Worker) : Worker :=
  match w.bar with
  | some _ => { w with bar := none }
  | none => w

/-- Message sent to the logging collaborator, tagged with its level. -/
inductive Log
  | info (msg : String)
  | error (msg : String)
deriving DecidableEq

/-- How a call to the worker ends: a normal return, `sys.exit code`, or
an exception propagating out of the call. -/
inductive Outcome
  | ok
  | exited (code : Nat)
  | raised (msg : String)
deriving DecidableEq

/-- Injected I/O failure: which operation of `copy_file` raises, if any.
`getsize` is the `os.path.getsize` call in `init_bar`, `probeOpen` the
`open` inside `is_binary`, `srcOpen`/`destOpen` the two opens of the
with-statement, and `readAt k` / `writeAt k` the k-th read or write of
the chunk loop (counting from 0). -/
inductive IOFault
  | none
  | getsize
  | probeOpen
  | srcOpen
  | destOpen
  | readAt (k : Nat)
  | writeAt (k : Nat)
deriving DecidableEq

/-- Result of one `copy_file` call: the outcome, the destination file's
byte content afterwards (`none` when the destination does not exist), the
worker's bar afterwards, the log messages emitted, the chunks written (as
code-point or byte units), the cumulative progress advanced on the bar,
and whether the conflict prompt was shown. -/
structure CopyResult where
  outcome : Outcome
  dest : Option (List Nat)
  bar : Option Bar
  logs : List Log
  writes : List (List Nat)
  progress : Nat
  prompted : Bool
deriving DecidableEq

/-- Result of one `link_file` call: the target string of the symlink now
at the destination (`none` when none was created), the log messages, and
whether the conflict prompt was shown. -/
structure LinkResult where
  destLink : Option String
  logs : List Log
  prompted : Bool
deriving DecidableEq

/-- Embeds `Worker.link_file` (lines 71-85): `os.symlink(src, dest)`
creates at `dest` a symlink whose target string is the source PATH `src`
(the code never reads the source link's own target); the call fails with
a caught `OSError` when the destination already exists or `osFault` is
injected. Success and failure are both reported via `logger.error`.
There is no conflict prompt anywhere in this function. -/
def Worker.link_file (src dest : String) (destExists : Bool) (osFault : Bool) :
    LinkResult :=
  if destExists || osFault then
    { destLink := Option.none,
      logs := [Log.error s!"Failed to link {src} to {dest}\n"],
      prompted := false }
  else
    { destLink := some src,
      logs := [Log.error s!"Success linking {src} to {dest}\n"],
      prompted := false }

/-- Decision produced by the interactive conflict loop of `copy_file`
(lines 98-110) fed with a finite list of input lines. `eof` models
`input()` raising `EOFError` when the input is exhausted. -/
inductive ResolveOutcome
  | skip
  | exitProg
  | overwrite
  | eof
deriving DecidableEq

/-- Models `str.lower` on the ASCII letters (the prompt only compares the
lowered answer with the ASCII strings `"s"`, `"e"`, `"o"`). -/
def strLower (s : String) : String := String.mk (s.data.map Char.toLower)

/-- Embeds the conflict prompt loop (lines 98-110): lower-case each
answer; `"s"` skips, `"e"` exits the process, `"o"` overwrites, anything
else re-prompts. -/
def resolveLoop : List String → ResolveOutcome
  | [] => .eof
  | r :: rest =>
    let resp := strLower r
    if resp = "s" then .skip
    else if resp = "e" then .exitProg
    else if resp = "o" then .overwrite
    else resolveLoop rest

/-- Units streamed by the chunk loop for a given source content: the raw
bytes in binary mode, the newline-translated decoded code points in text
mode. -/
def streamedUnits (src : List Nat) : List Nat :=
  if is_binary src then src
  else translateNewlines (utf8DecodePrefixAux src.length src).1

/-- Whether text-mode reading of the source eventually raises a
`UnicodeDecodeError` (never in binary mode). -/
def streamDecodeErr (src : List Nat) : Bool :=
  if is_binary src then false
  else (utf8DecodePrefixAux src.length src).2.2

/-- Minimum of two optional event indices. -/
def optMin : Option Nat → Option Nat → Option Nat
  | Option.none, b => b
  | some a, Option.none => some a
  | some a, some b => some (min a b)

/-- Embeds the chunked while-loop of `copy_file` (lines 122-130) together
with the raise points inside the with-block. Reads are numbered from 0:
read `k` yields chunk `k`, the loop ends with an empty read numbered
`(chunksOf cs units).length`, and write `k` follows read `k`. A pending
decode error raises at the read that first needs the invalid bytes, after
`units.length / cs` complete chunks; this is the latest position naive
decoding allows — CPython's buffered decoding can raise at an earlier
read, so the exact partial destination content on such inputs is an
approximation that no theorem below relies on. Returns the chunks
written before the first failing operation and, if one failed, the
exception message. -/
def streamCopy (cs : Nat) (units : List Nat) (decodeErr : Bool)
    (fault : IOFault) : List (List Nat) × Option String :=
  let cks := chunksOf cs units
  let n := cks.length
  let injRead : Option Nat :=
    match fault with
    | .readAt k => if k ≤ n then some k else Option.none
    | _ => Option.none
  let decRead : Option Nat :=
    if decodeErr ∧ cs ≠ 0 then some (units.length / cs) else Option.none
  let readFail := optMin injRead decRead
  let writeFail : Option Nat :=
    match fault with
    | .writeAt k => if k < n then some k else Option.none
    | _ => Option.none
  let readMsg : String :=
    match injRead, decRead with
    | some a, some b => if b ≤ a then "UnicodeDecodeError" else "OSError: read"
    | Option.none, some _ => "UnicodeDecodeError"
    | _, _ => "OSError: read"
  match readFail, writeFail with
  | Option.none, Option.none => (cks, Option.none)
  | some r, Option.none => (cks.take r, some readMsg)
  | Option.none, some k => (cks.take k, some "OSError: write")
  | some r, some k =>
    if r ≤ k then (cks.take r, some readMsg)
    else (cks.take k, some "OSError: write")

/-- Failure message of `copy_file`'s except-clause (line 136): it names
the source, the destination and the error detail. -/
def errLog (srcPath destPath m : String) : String :=
  s!"Error copying {srcPath} to {destPath}: {m}\n"

/-- Embeds the body of `copy_file` after the conflict check (lines
112-136): set `_curr_path`, `init_bar()` (the `getsize` call may raise —
it sits BEFORE the try block, so a failure propagates), `is_binary(src)`
(its `open` may raise `OSError`, also before the try block, leaving the
just-created bar live), then the guarded with-block: open both files
(opening `dest` for writing truncates it), stream the chunks, close the
bar and log success; on any exception inside the try, close the bar, log
the failure with source, destination and error detail, and return
normally. -/
def copyBody (w : Worker) (srcPath destPath : String) (srcContent : List Nat)
    (destContent : Option (List Nat)) (fault : IOFault) (prompted : Bool) :
    CopyResult :=
  if fault = .getsize then
    { outcome := .raised "OSError: stat", dest := destContent, bar := w.bar,
      logs := [], writes := [], progress := 0, prompted := prompted }
  else
    let bar0 : Bar := { total := srcContent.length, transferred := 0 }
    if fault = .probeOpen then
      { outcome := .raised "OSError: open", dest := destContent,
        bar := some bar0, logs := [], writes := [], progress := 0,
        prompted := prompted }
    else
      if fault = .srcOpen ∨ fault = .destOpen then
        { outcome := .ok, dest := destContent, bar := Option.none,
          logs := [Log.error (errLog srcPath destPath "OSError: open")],
          writes := [], progress := 0, prompted := prompted }
      else
        let res := streamCopy w.chunk_size (streamedUnits srcContent)
          (streamDecodeErr srcContent) fault
        let destBytes : List Nat :=
          if is_binary srcContent then res.1.flatten else utf8Encode res.1.flatten
        match res.2 with
        | Option.none =>
          { outcome := .ok, dest := some destBytes, bar := Option.none,
            logs := [Log.info s!"Success copying {srcPath} to {destPath}\n"],
            writes := res.1, progress := (res.1.map List.length).sum,
            prompted := prompted }
        | some m =>
          { outcome := .ok, dest := some destBytes, bar := Option.none,
            logs := [Log.error (errLog srcPath destPath m)],
            writes := res.1, progress := (res.1.map List.length).sum,
            prompted := prompted }

/-- Embeds `Worker.copy_file` (lines 87-136). The destination file's
presence and content are `destContent`; `responses` feeds the interactive
prompt; `fault` injects at most one I/O failure. -/
def Worker.copy_file (w : Worker) (srcPath destPath : String)
    (srcContent : List Nat) (destContent : Option (List Nat))
    (responses : List String) (fault : IOFault) : CopyResult :=
  if destContent.isSome then
    match resolveLoop responses with
    | .skip =>
      { outcome := .ok, dest := destContent, bar := w.bar, logs := [],
        writes := [], progress := 0, prompted := true }
    | .exitProg =>
      { outcome := .exited 1, dest := destContent, bar := w.bar, logs := [],
        writes := [], progress := 0, prompted := true }
    | .eof =>
      { outcome := .raised "EOFError", dest := destContent, bar := w.bar,
        logs := [], writes := [], progress := 0, prompted := true }
    | .overwrite => copyBody w srcPath destPath srcContent destContent fault true
  else copyBody w srcPath destPath srcContent destContent fault false

theorem chunksOfAux_flatten : ∀ (fuel cs : Nat) (l : List Nat), cs ≠ 0 →
    l.length ≤ fuel → (chunksOfAux fuel cs l).flatten = l := by
  intro fuel
  induction fuel with
  | zero =>
    intro cs l hcs hl
    have : l = [] := List.eq_nil_of_length_eq_zero (Nat.le_zero.mp hl)
    simp [this, chunksOfAux]
  | succ n ih =>
    intro cs l hcs hl
    by_cases hnil : l = []
    · simp [hnil, chunksOfAux]
    · rw [chunksOfAux]
      simp only [hcs, hnil, or_self, if_false]
      rw [List.flatten_cons, ih cs (l.drop cs) hcs ?_, List.take_append_drop]
      have h1 : 0 < l.length := List.length_pos.mpr hnil
      simp only [List.length_drop]
      omega

theorem chunksOf_flatten (cs : Nat) (l : List Nat) (hcs : cs ≠ 0) :
    (chunksOf cs l).flatten = l :=
  chunksOfAux_flatten l.length cs l hcs (Nat.le_refl _)

theorem chunksOfAux_mem_length : ∀ (fuel cs : Nat) (l c : List Nat),
    c ∈ chunksOfAux fuel cs l → c.length ≤ cs := by
  intro fuel
  induction fuel with
  | zero => intro cs l c hc; simp [chunksOfAux] at hc
  | succ n ih =>
    intro cs l c hc
    rw [chunksOfAux] at hc
    split at hc
    · simp at hc
    · rcases List.mem_cons.mp hc with h | h
      · subst h; simp
      · exact ih cs (l.drop cs) c h

theorem chunksOf_mem_length (cs : Nat) (l c : List Nat) (hc : c ∈ chunksOf cs l) :
    c.length ≤ cs :=
  chunksOfAux_mem_length l.length cs l c hc

theorem chunksOf_sum_length (cs : Nat) (l : List Nat) (hcs : cs ≠ 0) :
    ((chunksOf cs l).map List.length).sum = l.length := by
  rw [← List.length_flatten, chunksOf_flatten cs l hcs]

theorem translateNewlines_of_not_mem : ∀ (l : List Nat), 13 ∉ l →
    translateNewlines l = l := by
  intro l
  induction l using translateNewlines.induct with
  | case1 => intro; rfl
  | case2 rest ih => intro h; simp at h
  | case3 rest h1 ih => intro h; simp at h
  | case4 c rest h1 h2 ih =>
    intro h
    simp only [List.mem_cons, not_or] at h
    rw [translateNewlines]
    · rw [ih h.2]
    · exact h1
    · exact h2

theorem utf8EncodeChar_decodeOne : ∀ (bytes : List Nat) (c : Nat) (rest : List Nat),
    utf8DecodeOne bytes = some (some (c, rest)) →
    utf8EncodeChar c ++ rest = bytes := by
  intro bytes c rest h
  match bytes with
  | [] => simp [utf8DecodeOne] at h
  | b :: bs =>
    simp only [utf8DecodeOne] at h
    by_cases h1 : b < 0x80
    · simp only [h1, if_true, Option.some.injEq, Prod.mk.injEq] at h
      obtain ⟨rfl, rfl⟩ := h
      simp [utf8EncodeChar, h1]
    · simp only [h1, if_false] at h
      by_cases h2 : b < 0xC2
      · simp [h2] at h
      · simp only [h2, if_false] at h
        by_cases h3 : b < 0xE0
        · simp only [h3, if_true] at h
          match bs with
          | [] => simp at h
          | c1 :: r =>
            simp only at h
            split_ifs at h with hc
            simp only [Option.some.injEq, Prod.mk.injEq] at h
            obtain ⟨rfl, rfl⟩ := h
            rw [utf8EncodeChar]
            split_ifs with g1 g2 g3 <;>
              first
              | omega
              | (simp only [List.cons_append, List.nil_append, List.cons.injEq,
                  and_true]; omega)
        · simp only [h3, if_false] at h
          by_cases h4 : b < 0xF0
          · simp only [h4, if_true] at h
            match bs with
            | [] => simp at h
            | [c1] => simp at h
            | c1 :: c2 :: r =>
              simp only at h
              split_ifs at h with hc
              simp only [Option.some.injEq, Prod.mk.injEq] at h
              obtain ⟨rfl, rfl⟩ := h
              rw [utf8EncodeChar]
              split_ifs with g1 g2 g3 <;>
                first
                | omega
                | (simp only [List.cons_append, List.nil_append, List.cons.injEq,
                    and_true]; omega)
          · simp only [h4, if_false] at h
            by_cases h5 : b < 0xF5
            · simp only [h5, if_true] at h
              match bs with
              | [] => simp at h
              | [c1] => simp at h
              | [c1, c2] => simp at h
              | c1 :: c2 :: c3 :: r =>
                simp only at h
                split_ifs at h with hc
                simp only [Option.some.injEq, Prod.mk.injEq] at h
                obtain ⟨rfl, rfl⟩ := h
                rw [utf8EncodeChar]
                split_ifs with g1 g2 g3 <;>
                  first
                  | omega
                  | (simp only [List.cons_append, List.nil_append, List.cons.injEq,
                      and_true]; omega)
            · simp [h5] at h

theorem utf8EncodeChar_length_pos (c : Nat) : 0 < (utf8EncodeChar c).length := by
  rw [utf8EncodeChar]
  split_ifs <;> simp

theorem utf8DecodeOne_consume_lt (bytes : List Nat) (c : Nat) (rest : List Nat)
    (h : utf8DecodeOne bytes = some (some (c, rest))) :
    rest.length < bytes.length := by
  have h1 := utf8EncodeChar_decodeOne bytes c rest h
  have h2 := utf8EncodeChar_length_pos c
  have h3 : (utf8EncodeChar c ++ rest).length = bytes.length := by rw [h1]
  rw [List.length_append] at h3
  omega

theorem utf8DecodeOne_eof (bytes : List Nat) (h : utf8DecodeOne bytes = some none) :
    bytes = [] := by
  match bytes with
  | [] => rfl
  | [b] =>
    exfalso; simp only [utf8DecodeOne] at h; split_ifs at h <;> simp_all
  | [b, c1] =>
    exfalso; simp only [utf8DecodeOne] at h; split_ifs at h <;> simp_all
  | [b, c1, c2] =>
    exfalso; simp only [utf8DecodeOne] at h; split_ifs at h <;> simp_all
  | b :: c1 :: c2 :: c3 :: r =>
    exfalso; simp only [utf8DecodeOne] at h; split_ifs at h <;> simp_all

theorem utf8Encode_cons (c : Nat) (cs : List Nat) :
    utf8Encode (c :: cs) = utf8EncodeChar c ++ utf8Encode cs := by
  simp [utf8Encode]

theorem utf8DecodePrefixAux_encode : ∀ (n : Nat) (bytes : List Nat),
    utf8Encode (utf8DecodePrefixAux n bytes).1 ++ (utf8DecodePrefixAux n bytes).2.1
      = bytes := by
  intro n
  induction n with
  | zero => intro bytes; simp [utf8DecodePrefixAux, utf8Encode]
  | succ n ih =>
    intro bytes
    rw [utf8DecodePrefixAux]
    cases hd : utf8DecodeOne bytes with
    | none => simp [utf8Encode]
    | some o =>
      cases o with
      | none => simp [utf8Encode]
      | some p =>
        obtain ⟨c, rest⟩ := p
        simp only
        rw [utf8Encode_cons, List.append_assoc, ih rest]
        exact utf8EncodeChar_decodeOne bytes c rest hd

theorem utf8DecodePrefixAux_rest : ∀ (n : Nat) (bytes : List Nat),
    bytes.length ≤ n → (utf8DecodePrefixAux n bytes).2.2 = false →
    (utf8DecodePrefixAux n bytes).2.1 = [] := by
  intro n
  induction n with
  | zero =>
    intro bytes hlen herr
    have : bytes = [] := List.eq_nil_of_length_eq_zero (Nat.le_zero.mp hlen)
    subst this
    rfl
  | succ n ih =>
    intro bytes hlen herr
    rw [utf8DecodePrefixAux] at herr ⊢
    cases hd : utf8DecodeOne bytes with
    | none => rw [hd] at herr; simp at herr
    | some o =>
      cases o with
      | none =>
        simp only
        exact utf8DecodeOne_eof bytes hd
      | some p =>
        obtain ⟨c, rest⟩ := p
        rw [hd] at herr
        simp only at herr ⊢
        have hlt := utf8DecodeOne_consume_lt bytes c rest hd
        exact ih rest (by omega) herr

theorem streamCopy_clean (cs : Nat) (units : List Nat) :
    streamCopy cs units false .none = (chunksOf cs units, Option.none) := rfl

theorem copyBody_clean (w : Worker) (s d : String) (src : List Nat)
    (dC : Option (List Nat)) (pr : Bool) (hdec : streamDecodeErr src = false) :
    copyBody w s d src dC .none pr =
      { outcome := .ok,
        dest := some (if is_binary src then
            (chunksOf w.chunk_size (streamedUnits src)).flatten
          else utf8Encode (chunksOf w.chunk_size (streamedUnits src)).flatten),
        bar := Option.none,
        logs := [Log.info s!"Success copying {s} to {d}\n"],
        writes := chunksOf w.chunk_size (streamedUnits src),
        progress := ((chunksOf w.chunk_size (streamedUnits src)).map List.length).sum,
        prompted := pr } := by
  simp [copyBody, hdec, streamCopy_clean]

theorem copyBody_prompted (w : Worker) (s d : String) (src : List Nat)
    (dC : Option (List Nat)) (f : IOFault) (pr : Bool) :
    (copyBody w s d src dC f pr).prompted = pr := by
  simp only [copyBody]
  split_ifs <;>
    first
    | rfl
    | (cases hs : (streamCopy w.chunk_size (streamedUnits src) (streamDecodeErr src) f).2 <;>
        simp [hs])

theorem copy_file_to_body (w : Worker) (s d : String) (src : List Nat)
    (dC : Option (List Nat)) (resps : List String) (f : IOFault)
    (hres : dC = Option.none ∨ resolveLoop resps = .overwrite) :
    ∃ pr, w.copy_file s d src dC resps f = copyBody w s d src dC f pr := by
  rcases hres with h | h
  · subst h
    exact ⟨false, rfl⟩
  · cases dC with
    | none => exact ⟨false, rfl⟩
    | some v =>
      refine ⟨true, ?_⟩
      rw [Worker.copy_file]
      simp [h]

theorem copyBody_getsize (w : Worker) (s d : String) (src : List Nat)
    (dC : Option (List Nat)) (pr : Bool) :
    copyBody w s d src dC .getsize pr =
      { outcome := .raised "OSError: stat", dest := dC, bar := w.bar,
        logs := [], writes := [], progress := 0, prompted := pr } := by
  simp [copyBody]

theorem copyBody_probeOpen (w : Worker) (s d : String) (src : List Nat)
    (dC : Option (List Nat)) (pr : Bool) :
    copyBody w s d src dC .probeOpen pr =
      { outcome := .raised "OSError: open", dest := dC,
        bar := some { total := src.length, transferred := 0 },
        logs := [], writes := [], progress := 0, prompted := pr } := by
  simp [copyBody]

theorem copyBody_openFault (w : Worker) (s d : String) (src : List Nat)
    (dC : Option (List Nat)) (pr : Bool) (f : IOFault)
    (hf : f = .srcOpen ∨ f = .destOpen) :
    copyBody w s d src dC f pr =
      { outcome := .ok, dest := dC, bar := Option.none,
        logs := [Log.error (errLog s d "OSError: open")],
        writes := [], progress := 0, prompted := pr } := by
  rcases hf with rfl | rfl <;> simp [copyBody]

theorem copyBody_streamFault (w : Worker) (s d : String) (src : List Nat)
    (dC : Option (List Nat)) (pr : Bool) (f : IOFault) (t : List (List Nat)) (m : String)
    (h1 : f ≠ .getsize) (h2 : f ≠ .probeOpen) (h3 : f ≠ .srcOpen) (h4 : f ≠ .destOpen)
    (hs : streamCopy w.chunk_size (streamedUnits src) (streamDecodeErr src) f
        = (t, some m)) :
    copyBody w s d src dC f pr =
      { outcome := .ok,
        dest := some (if is_binary src then t.flatten else utf8Encode t.flatten),
        bar := Option.none,
        logs := [Log.error (errLog s d m)],
        writes := t, progress := (t.map List.length).sum, prompted := pr } := by
  simp [copyBody, h1, h2, h3, h4, hs]

theorem streamCopy_readFault (cs : Nat) (units : List Nat) (de : Bool) (k : Nat)
    (hk : k ≤ (chunksOf cs units).length) :
    ∃ t m, streamCopy cs units de (.readAt k) = (t, some m) := by
  simp only [streamCopy, hk, if_true]
  split_ifs with h
  · exact ⟨_, _, rfl⟩
  · exact ⟨_, _, rfl⟩

theorem streamCopy_writeFault (cs : Nat) (units : List Nat) (de : Bool) (k : Nat)
    (hk : k < (chunksOf cs units).length) :
    ∃ t m, streamCopy cs units de (.writeAt k) = (t, some m) := by
  simp only [streamCopy, hk, if_true]
  split_ifs with h
  · simp only [optMin]
    split_ifs with h2
    · exact ⟨_, _, rfl⟩
    · exact ⟨_, _, rfl⟩
  · exact ⟨_, _, rfl⟩

theorem copyBody_bar (w : Worker) (s d : String) (src : List Nat)
    (dC : Option (List Nat)) (f : IOFault) (pr : Bool)
    (hok : ∀ m, (copyBody w s d src dC f pr).outcome ≠ .raised m) :
    (copyBody w s d src dC f pr).bar = Option.none := by
  by_cases h1 : f = .getsize
  · subst h1
    rw [copyBody_getsize] at hok
    exact absurd rfl (hok "OSError: stat")
  by_cases h2 : f = .probeOpen
  · subst h2
    rw [copyBody_probeOpen] at hok
    exact absurd rfl (hok "OSError: open")
  by_cases h3 : f = .srcOpen ∨ f = .destOpen
  · rw [copyBody_openFault w s d src dC pr f h3]
  · push_neg at h3
    cases hs : streamCopy w.chunk_size (streamedUnits src) (streamDecodeErr src) f with
    | mk t o =>
      cases o with
      | none => simp [copyBody, h1, h2, h3.1, h3.2, hs]
      | some m =>
        rw [copyBody_streamFault w s d src dC pr f t m h1 h2 h3.1 h3.2 hs]

/-- Claim C1 (code evidence). The claim says the destination symlink's raw
target string equals the raw target read from the source link. The code
instead calls `os.symlink(src, dest)`, so for the source symlink at path
`A/c` (whose own target is `/tmp/target`) the link created at `dest/c`
has target string `A/c` — the source path, not the source link's target,
which is never read. -/
theorem c1_link_target_is_source_path :
    (Worker.link_file "A/c" "dest/c" false false).destLink = some "A/c" ∧
    (Worker.link_file "A/c" "dest/c" false false).destLink ≠ some "/tmp/target" := by
  constructor
  · rfl
  · decide

/-- Claim C2 counterexample. The text file `a CR LF b` (bytes
`[97, 13, 10, 98]`) passes the binary probe, is copied in text mode, and
universal-newline translation turns `CR LF` into `LF`: the copy completes
with no conflict and no error, yet the destination holds `[97, 10, 98]`,
not the source's bytes. -/
theorem c2_counterexample :
    ((Worker.init 4096).copy_file "src.txt" "dest.txt" [97, 13, 10, 98]
        Option.none [] .none).outcome = .ok ∧
    ((Worker.init 4096).copy_file "src.txt" "dest.txt" [97, 13, 10, 98]
        Option.none [] .none).dest = some [97, 10, 98] ∧
    [97, 10, 98] ≠ [97, 13, 10, 98] := by
  refine ⟨by decide, by decide, by decide⟩

/-- Claim C2 as amended. For every regular source file that `copy_file`
copies to completion (no conflict or Overwrite chosen, positive chunk
size, no I/O fault): in binary mode the destination's byte content equals
the source's; in text mode (when the source decodes as UTF-8 without
error) the destination holds the UTF-8 re-encoding of the
newline-translated decoded content — in particular it equals the source
byte-for-byte whenever the decoded source contains no carriage return
(code point 13). -/
theorem c2_amended (cs : Nat) (srcPath destPath : String) (src : List Nat)
    (destC : Option (List Nat)) (resps : List String) (hcs : cs ≠ 0)
    (hres : destC = Option.none ∨ resolveLoop resps = .overwrite) :
    ((Worker.init cs).copy_file srcPath destPath src destC resps .none).outcome = .ok ∧
    (is_binary src = true →
      ((Worker.init cs).copy_file srcPath destPath src destC resps .none).dest
        = some src) ∧
    (is_binary src = false →
      (utf8DecodePrefixAux src.length src).2.2 = false →
      ((Worker.init cs).copy_file srcPath destPath src destC resps .none).dest
        = some (utf8Encode (translateNewlines (utf8DecodePrefixAux src.length src).1)) ∧
      (13 ∉ (utf8DecodePrefixAux src.length src).1 →
        ((Worker.init cs).copy_file srcPath destPath src destC resps .none).dest
          = some src)) := by
  obtain ⟨pr, hpr⟩ := copy_file_to_body (Worker.init cs) srcPath destPath src destC resps
    .none hres
  rw [hpr]
  have hcseq : (Worker.init cs).chunk_size = cs := rfl
  refine ⟨?_, ?_, ?_⟩
  · by_cases hde : streamDecodeErr src = false
    · rw [copyBody_clean _ _ _ _ _ _ hde]
    · cases hs : streamCopy (Worker.init cs).chunk_size (streamedUnits src)
          (streamDecodeErr src) .none with
      | mk t o =>
        cases o with
        | none => simp [copyBody, hs]
        | some m =>
          rw [copyBody_streamFault _ _ _ _ _ _ _ t m (by decide) (by decide) (by decide)
            (by decide) hs]
  · intro hb
    have hde : streamDecodeErr src = false := by simp [streamDecodeErr, hb]
    rw [copyBody_clean _ _ _ _ _ _ hde]
    simp only [hb, if_true, hcseq]
    rw [chunksOf_flatten cs _ hcs]
    simp [streamedUnits, hb]
  · intro hb herr
    have hde : streamDecodeErr src = false := by simp [streamDecodeErr, hb, herr]
    have hunits : streamedUnits src
        = translateNewlines (utf8DecodePrefixAux src.length src).1 := by
      simp [streamedUnits, hb]
    constructor
    · rw [copyBody_clean _ _ _ _ _ _ hde]
      simp only [hb, Bool.false_eq_true, if_false, hcseq]
      rw [chunksOf_flatten cs _ hcs, hunits]
    · intro hcr
      rw [copyBody_clean _ _ _ _ _ _ hde]
      simp only [hb, Bool.false_eq_true, if_false, hcseq]
      rw [chunksOf_flatten cs _ hcs, hunits,
        translateNewlines_of_not_mem _ hcr]
      have h1 : (utf8DecodePrefixAux src.length src).2.1 = [] :=
        utf8DecodePrefixAux_rest src.length src (Nat.le_refl _) herr
      have h2 := utf8DecodePrefixAux_encode src.length src
      rw [h1, List.append_nil] at h2
      rw [h2]

/-- Witness for `c2_amended` at chunk size 4096 and the two-byte text
source `hi`, discharging both hypotheses. -/
theorem c2_amended_witness :
    ((4096 : Nat) ≠ 0) ∧
    ((Worker.init 4096).copy_file "s" "d" [104, 105] Option.none [] .none).dest
      = some [104, 105] := by
  refine ⟨by decide, ?_⟩
  have h := c2_amended 4096 "s" "d" [104, 105] Option.none [] (by decide) (Or.inl rfl)
  exact (h.2.2 (by decide) (by decide)).2 (by decide)

/-- Claim C3 counterexample. An exception in the probe open (the `open`
inside `is_binary`) or in the size query (`os.path.getsize` inside
`init_bar`) is raised BEFORE the try-block of `copy_file`: the call
propagates the exception and nothing is logged, contradicting the claim
that every open failure is contained and reported. -/
theorem c3_counterexample :
    ((Worker.init 4096).copy_file "s" "d" [104] Option.none [] .probeOpen).outcome
      = .raised "OSError: open" ∧
    ((Worker.init 4096).copy_file "s" "d" [104] Option.none [] .probeOpen).logs = [] ∧
    ((Worker.init 4096).copy_file "s" "d" [104] Option.none [] .getsize).outcome
      = .raised "OSError: stat" := by
  refine ⟨by decide, by decide, by decide⟩

/-- Claim C3 as amended. An exception while opening, reading or writing
inside the guarded with-block of `copy_file` is contained: the call
returns normally, the progress bar is closed, and one error-level message
naming source, destination and the error detail is logged. Exceptions
from the binary-probe open or the source size query, however, occur
before the try-block and propagate out of the call. -/
theorem c3_amended (w : Worker) (s d : String) (src : List Nat)
    (dC : Option (List Nat)) (resps : List String) (f : IOFault)
    (hres : dC = Option.none ∨ resolveLoop resps = .overwrite) :
    ((f = .srcOpen ∨ f = .destOpen ∨
        (∃ k, f = .readAt k ∧ k ≤ (chunksOf w.chunk_size (streamedUnits src)).length) ∨
        (∃ k, f = .writeAt k ∧ k < (chunksOf w.chunk_size (streamedUnits src)).length)) →
      (w.copy_file s d src dC resps f).outcome = .ok ∧
      (w.copy_file s d src dC resps f).bar = Option.none ∧
      ∃ m : String, (w.copy_file s d src dC resps f).logs
          = [Log.error (errLog s d m)]) ∧
    (f = .probeOpen →
      (w.copy_file s d src dC resps f).outcome = .raised "OSError: open") ∧
    (f = .getsize →
      (w.copy_file s d src dC resps f).outcome = .raised "OSError: stat") := by
  obtain ⟨pr, hpr⟩ := copy_file_to_body w s d src dC resps f hres
  rw [hpr]
  refine ⟨?_, ?_, ?_⟩
  · intro hf
    rcases hf with h | h | ⟨k, rfl, hk⟩ | ⟨k, rfl, hk⟩
    · rw [copyBody_openFault w s d src dC pr f (Or.inl h)]
      exact ⟨rfl, rfl, "OSError: open", rfl⟩
    · rw [copyBody_openFault w s d src dC pr f (Or.inr h)]
      exact ⟨rfl, rfl, "OSError: open", rfl⟩
    · obtain ⟨t, m, hs⟩ := streamCopy_readFault w.chunk_size (streamedUnits src)
        (streamDecodeErr src) k hk
      rw [copyBody_streamFault w s d src dC pr _ t m (by simp) (by simp) (by simp)
        (by simp) hs]
      exact ⟨rfl, rfl, m, rfl⟩
    · obtain ⟨t, m, hs⟩ := streamCopy_writeFault w.chunk_size (streamedUnits src)
        (streamDecodeErr src) k hk
      rw [copyBody_streamFault w s d src dC pr _ t m (by simp) (by simp) (by simp)
        (by simp) hs]
      exact ⟨rfl, rfl, m, rfl⟩
  · intro hf
    subst hf
    rw [copyBody_probeOpen]
  · intro hf
    subst hf
    rw [copyBody_getsize]

/-- Witness for `c3_amended`: a source-open failure on a conflict-free
copy returns normally with the bar closed. -/
theorem c3_amended_witness :
    ((Worker.init 4096).copy_file "a.txt" "b.txt" [104] Option.none [] .srcOpen).outcome
      = .ok ∧
    ((Worker.init 4096).copy_file "a.txt" "b.txt" [104] Option.none [] .srcOpen).bar
      = Option.none := by
  have h := (c3_amended (Worker.init 4096) "a.txt" "b.txt" [104] Option.none []
    .srcOpen (Or.inl rfl)).1 (Or.inl rfl)
  exact ⟨h.1, h.2.1⟩

/-- Claim C4 counterexample. `link_file` onto an existing destination
never prompts: the resolver is not invoked and the `os.symlink` failure
is merely logged, contradicting the claim that every link onto an
existing destination prompts. -/
theorem c4_counterexample :
    (Worker.link_file "s" "d" true false).prompted = false ∧
    (Worker.link_file "s" "d" true false).logs
      = [Log.error "Failed to link s to d\n"] := by
  refine ⟨by decide, by decide⟩

/-- Claim C4 as amended. `copy_file` invokes the interactive conflict
prompt if and only if the destination exists at the moment it runs;
`link_file` never prompts — an existing destination there surfaces as a
logged link failure instead. -/
theorem c4_amended :
    (∀ (w : Worker) (s d : String) (src : List Nat) (dC : Option (List Nat))
        (resps : List String) (f : IOFault),
      (w.copy_file s d src dC resps f).prompted = dC.isSome) ∧
    (∀ (s d : String) (de fa : Bool),
      (Worker.link_file s d de fa).prompted = false) := by
  constructor
  · intro w s d src dC resps f
    cases dC with
    | none => simp [Worker.copy_file, copyBody_prompted]
    | some v =>
      rw [Worker.copy_file]
      simp only [Option.isSome_some, if_true]
      cases resolveLoop resps <;> simp [copyBody_prompted]
  · intro s d de fa
    rw [Worker.link_file]
    split_ifs <;> rfl

/-- Claim C5. For a copy onto an existing destination, an interactive
answer lowering to `e` (so `e` or `E`) makes `copy_file` terminate the
process immediately via `sys.exit(1)` — a non-zero exit code — with the
destination's content unchanged. -/
theorem c5_abort (w : Worker) (s d : String) (src dcont : List Nat)
    (r : String) (rest : List String) (f : IOFault) (hr : strLower r = "e") :
    (w.copy_file s d src (some dcont) (r :: rest) f).outcome = .exited 1 ∧
    (w.copy_file s d src (some dcont) (r :: rest) f).dest = some dcont := by
  have hres : resolveLoop (r :: rest) = .exitProg := by
    rw [resolveLoop]
    simp [hr]
  rw [Worker.copy_file]
  simp [hres]

/-- Witness for `c5_abort` with the upper-case answer `E`. -/
theorem c5_abort_witness :
    strLower "E" = "e" ∧
    ((Worker.init 4096).copy_file "s" "d" [1, 2] (some [9, 9]) ["E"] .none).outcome
      = .exited 1 := by
  refine ⟨by decide, ?_⟩
  exact (c5_abort (Worker.init 4096) "s" "d" [1, 2] [9, 9] "E" [] .none (by decide)).1

/-- Claim C6. For a copy onto an existing destination, an interactive
answer lowering to `s` makes `copy_file` return immediately: no chunk is
written, nothing is logged, no error occurs, and the destination's byte
content is unchanged. -/
theorem c6_skip (w : Worker) (s d : String) (src dcont : List Nat)
    (r : String) (rest : List String) (f : IOFault) (hr : strLower r = "s") :
    (w.copy_file s d src (some dcont) (r :: rest) f).outcome = .ok ∧
    (w.copy_file s d src (some dcont) (r :: rest) f).dest = some dcont ∧
    (w.copy_file s d src (some dcont) (r :: rest) f).writes = [] ∧
    (w.copy_file s d src (some dcont) (r :: rest) f).logs = [] := by
  have hres : resolveLoop (r :: rest) = .skip := by
    rw [resolveLoop]
    simp [hr]
  rw [Worker.copy_file]
  simp [hres]

/-- Witness for `c6_skip` with the upper-case answer `S`. -/
theorem c6_skip_witness :
    strLower "S" = "s" ∧
    ((Worker.init 4096).copy_file "s" "d" [1, 2] (some [9, 9]) ["S"] .none).dest
      = some [9, 9] := by
  refine ⟨by decide, ?_⟩
  exact (c6_skip (Worker.init 4096) "s" "d" [1, 2] [9, 9] "S" [] .none (by decide)).2.1

/-- Claim C7 counterexample. With chunk size 1, the two-byte text source
`é` (`[195, 169]`) is streamed as ONE decoded character per read: a
single chunked write delivers 2 bytes to the destination, exceeding the
claimed at-most-chunkSize BYTES per write. -/
theorem c7_counterexample :
    ((Worker.init 1).copy_file "s" "d" [195, 169] Option.none [] .none).writes.length
      = 1 ∧
    ((Worker.init 1).copy_file "s" "d" [195, 169] Option.none [] .none).dest
      = some [195, 169] ∧
    ((Worker.init 1).copy_file "s" "d" [195, 169] Option.none [] .none).outcome
      = .ok := by
  refine ⟨by decide, by decide, by decide⟩

/-- Claim C7 as amended. `copy_file` streams the source in chunks of at
most `chunk_size` units — bytes in binary mode, decoded characters in
text mode (a character chunk may encode to more than `chunk_size` bytes)
— stopping when a read returns zero units, and progress accumulates to
the unit length of the stream; in the concrete scenario (chunk size 4,
10-byte source `0123456789`) exactly 3 chunked writes of 4, 4 and 2
bytes occur and progress accumulates to exactly 10. -/
theorem c7_amended (cs : Nat) (srcPath destPath : String) (src : List Nat)
    (hcs : cs ≠ 0) (hde : streamDecodeErr src = false) :
    ((Worker.init cs).copy_file srcPath destPath src Option.none [] .none).writes
        = chunksOf cs (streamedUnits src) ∧
    (∀ c ∈ ((Worker.init cs).copy_file srcPath destPath src Option.none [] .none).writes,
        c.length ≤ cs) ∧
    ((Worker.init cs).copy_file srcPath destPath src Option.none [] .none).progress
        = (streamedUnits src).length ∧
    (((Worker.init 4).copy_file "src" "dest" [48, 49, 50, 51, 52, 53, 54, 55, 56, 57]
        Option.none [] .none).writes.map List.length = [4, 4, 2]) ∧
    ((Worker.init 4).copy_file "src" "dest" [48, 49, 50, 51, 52, 53, 54, 55, 56, 57]
        Option.none [] .none).progress = 10 := by
  have hb : (Worker.init cs).copy_file srcPath destPath src Option.none [] .none
      = copyBody (Worker.init cs) srcPath destPath src Option.none .none false := rfl
  have hcseq : (Worker.init cs).chunk_size = cs := rfl
  rw [hb, copyBody_clean _ _ _ _ _ _ hde]
  refine ⟨rfl, ?_, ?_, by decide, by decide⟩
  · intro c hc
    exact chunksOf_mem_length cs (streamedUnits src) c hc
  · exact chunksOf_sum_length cs (streamedUnits src) hcs

/-- Witness for `c7_amended`, discharging both hypotheses and exhibiting
the concrete 4+4+2 scenario. -/
theorem c7_amended_witness :
    ((4 : Nat) ≠ 0) ∧
    ((Worker.init 4).copy_file "src" "dest" [48, 49, 50, 51, 52, 53, 54, 55, 56, 57]
        Option.none [] .none).writes.map List.length = [4, 4, 2] := by
  refine ⟨by decide, ?_⟩
  exact (c7_amended 4 "x" "y" [] (by decide) (by decide)).2.2.2.1

/-- Claim C8 counterexample. When the binary-probe open raises, the just
created progress bar is still live while the exception propagates out of
`copy_file`: an exit path on which the progress state is NOT closed. -/
theorem c8_counterexample :
    ((Worker.init 4096).copy_file "s" "d" [104] Option.none [] .probeOpen).bar
      = some { total := 1, transferred := 0 } ∧
    ((Worker.init 4096).copy_file "s" "d" [104] Option.none [] .probeOpen).outcome
      = .raised "OSError: open" := by
  refine ⟨by decide, by decide⟩

/-- Claim C8 as amended. Starting from a worker with no live bar, every
`copy_file` call that returns (normally or via `sys.exit`) ends with no
live bar — only the exit path where an exception propagates (size query
or probe open) can leave the bar live; `close_bar` is idempotent and a
no-op when no bar is active. -/
theorem c8_amended :
    (∀ (w : Worker) (s d : String) (src : List Nat) (dC : Option (List Nat))
        (resps : List String) (f : IOFault),
      w.bar = Option.none →
      (∀ m, (w.copy_file s d src dC resps f).outcome ≠ .raised m) →
      (w.copy_file s d src dC resps f).bar = Option.none) ∧
    (∀ w : Worker, w.close_bar.close_bar = w.close_bar) ∧
    (∀ w : Worker, w.bar = Option.none → w.close_bar = w) := by
  refine ⟨?_, ?_, ?_⟩
  · intro w s d src dC resps f hw hok
    rw [Worker.copy_file] at hok ⊢
    cases dC with
    | none =>
      simp only [Option.isSome_none, Bool.false_eq_true, if_false] at hok ⊢
      exact copyBody_bar w s d src Option.none f false hok
    | some v =>
      simp only [Option.isSome_some, if_true] at hok ⊢
      revert hok
      cases hres : resolveLoop resps with
      | skip => intro hok; exact hw
      | exitProg => intro hok; exact hw
      | eof => intro hok; exact absurd rfl (hok "EOFError")
      | overwrite => intro hok; exact copyBody_bar w s d src (some v) f true hok
  · intro w
    rw [Worker.close_bar]
    cases hw : w.bar <;> simp [Worker.close_bar, hw]
  · intro w hw
    rw [Worker.close_bar, hw]

/-- Witness for `c8_amended`: a clean copy ends with the bar closed, and
`close_bar` on a bar-less worker is the identity. -/
theorem c8_amended_witness :
    ((Worker.init 4096).copy_file "s" "d" [104] Option.none [] .none).bar
        = Option.none ∧
    (Worker.init 4096).close_bar = Worker.init 4096 := by
  constructor
  · refine c8_amended.1 (Worker.init 4096) "s" "d" [104] Option.none [] .none rfl ?_
    intro m h
    rw [show ((Worker.init 4096).copy_file "s" "d" [104] Option.none [] .none).outcome
      = .ok from by decide] at h
    exact Outcome.noConfusion h
  · exact c8_amended.2.2 (Worker.init 4096) rfl

/-- Claim C10. `link_file` reports its success message through
`logger.error`, the error-level channel, not `logger.info`; failures use
the same channel, so both outcomes of symlink replication are reported
at error level. -/
theorem c10_link_success_at_error_level (src dest : String) :
    (Worker.link_file src dest false false).logs
        = [Log.error s!"Success linking {src} to {dest}\n"] ∧
    (Worker.link_file src dest true false).logs
        = [Log.error s!"Failed to link {src} to {dest}\n"] := by
  constructor <;> rfl

end LazyCopy
